import Mathlib

/-!
Verification development for the solid-three reconciler core.

The definitions below are a shallow embedding of the repository's core
modules:

* `src/src/props.ts`       — `applyProp`, `manageProps`, `manageSceneGraph`
* `src/src/augment.ts`     — `augment`
* `src/src/proxy.tsx`      — catalogue / `T` component cache
* `src/src/create-events.ts` — event registry, `addEventListener`, the
  move/enter/leave handler
* `src/src/create-three.tsx` — `requestRender` coalescing

JavaScript values are modelled by the inductive type `JSVal`; the THREE
object heap is an association list from object ids to `ThreeObj` records
that carry the duck-typed capabilities (`copy`, `set`, `fromArray`,
`setScalar`, `Layers`, `Color`, ...) the code feature-probes, plus the
object's named fields.  Machine-observable side effects of a call
(render requests, event-listener registrations, logged errors) are
returned in an explicit `Effects` record.
-/

namespace SolidThree

/-! ### JavaScript string helpers

`String.prototype.includes` and `String.prototype.split("-")` are used by
the source; we implement them structurally on character lists so concrete
instances reduce by `decide` / `rfl`. -/

/-- Tests whether `p` occurs at the start of `s` (character lists). -/
def startsWithCh : List Char → List Char → Bool
  | [], _ => true
  | _ :: _, [] => false
  | p :: ps, c :: cs => p = c && startsWithCh ps cs

/-- Tests whether `pat` occurs somewhere inside `s` (JS `s.includes(pat)`). -/
def containsCh (pat : List Char) : List Char → Bool
  | [] => startsWithCh pat []
  | c :: rest => startsWithCh pat (c :: rest) || containsCh pat rest

/-- JS `s.includes(pat)` on strings. -/
def strIncludes (s pat : String) : Bool :=
  containsCh pat.data s.data

/-- JS `s.startsWith(pat)` on strings. -/
def strStarts (s pat : String) : Bool :=
  startsWithCh pat.data s.data

/-- Splits a character list on the dash character; mirrors JS
`String.prototype.split("-")`, which always yields at least one piece. -/
def splitDashCh : List Char → List (List Char)
  | [] => [[]]
  | c :: rest =>
    match splitDashCh rest with
    | [] => [[]]
    | h :: t => if c = '-' then [] :: h :: t else (c :: h) :: t

/-- JS `s.split("-")` on strings. -/
def splitDash (s : String) : List String :=
  (splitDashCh s.data).map List.asString

/-! ### JavaScript values and the THREE object heap -/

/-- A JavaScript runtime value.  Numbers are modelled as integers (no claim
under verification involves fractional values); objects are references
into an explicit heap. -/
inductive JSVal where
  | undef
  | null
  | num (n : Int)
  | str (s : String)
  | bool (b : Bool)
  | arr (xs : List JSVal)
  | obj (id : Nat)

/-- JS truthiness. -/
def truthy : JSVal → Bool
  | .undef => false
  | .null => false
  | .num n => n != 0
  | .str s => s != ""
  | .bool b => b
  | .arr _ => true
  | .obj _ => true

/-- Whether `typeof v !== "object"` holds: primitives pass, while arrays,
`null` and object references are all `"object"` in JS. -/
def typeofNonObject : JSVal → Bool
  | .num _ => true
  | .str _ => true
  | .bool _ => true
  | .undef => true
  | .arr _ => false
  | .null => false
  | .obj _ => false

def isNumV : JSVal → Bool
  | .num _ => true
  | _ => false

def isArrV : JSVal → Bool
  | .arr _ => true
  | _ => false

/-- A heap object: the duck-typed capabilities that `applyProp` probes,
THREE class-membership flags, the component keys written by
`fromArray` / variadic `set` / `setScalar`, and the named fields. -/
structure ThreeObj where
  ctor : String := "Object"
  hasCopy : Bool := false
  hasSet : Bool := false
  hasFromArray : Bool := false
  hasSetScalar : Bool := false
  isLayers : Bool := false
  isColor : Bool := false
  isObject3D : Bool := false
  isTexture : Bool := false
  componentKeys : List String := ["x", "y", "z"]
  fields : List (String × JSVal) := []

/-- Association-list field read; an absent field reads as `undefined`. -/
def getPair (k : String) : List (String × JSVal) → JSVal
  | [] => .undef
  | (k1, v) :: rest => if k1 = k then v else getPair k rest

/-- Association-list field write: overwrite in place, append if absent. -/
def setPair (k : String) (v : JSVal) : List (String × JSVal) → List (String × JSVal)
  | [] => [(k, v)]
  | (k1, v1) :: rest => if k1 = k then (k, v) :: rest else (k1, v1) :: setPair k v rest

/-- Whether the object literally has the field (JS `key in object`). -/
def hasPair (k : String) : List (String × JSVal) → Bool
  | [] => false
  | (k1, _) :: rest => k1 = k || hasPair k rest

abbrev Heap := List (Nat × ThreeObj)

def heapGet : Heap → Nat → Option ThreeObj
  | [], _ => none
  | (i, o) :: rest, id => if i = id then some o else heapGet rest id

def heapSet : Heap → Nat → ThreeObj → Heap
  | [], id, o => [(id, o)]
  | (i, o1) :: rest, id, o => if i = id then (id, o) :: rest else (i, o1) :: heapSet rest id o

/-- The object stored under `id`, defaulting to an empty plain object. -/
def objOf (h : Heap) (id : Nat) : ThreeObj :=
  (heapGet h id).getD {}

/-- Global state visible to `applyProp`: the heap plus the pieces of the
canvas/root context it consults (`canvasProps.frameloop`, the renderer's
color-space information used by the sRGB texture auto-conversion). -/
structure World where
  heap : Heap := []
  frameloop : String := "always"
  glHasColorSpace : Bool := true
  glOutputColorSpace : JSVal := .str "srgb"
  glOutputEncoding : JSVal := .num 3001

/-- Property read through a JS value (`source[key]`): only object
references have fields; reading a property of a primitive yields
`undefined` in this model. -/
def getFieldV (w : World) (v : JSVal) (k : String) : JSVal :=
  match v with
  | .obj id => getPair k (objOf w.heap id).fields
  | _ => (.undef)

/-- Property write through a JS value; writes to non-objects are dropped
(in JS they would either be ignored or throw, and in both cases leave the
heap unchanged). -/
def setFieldV (w : World) (v : JSVal) (k : String) (x : JSVal) : World :=
  match v with
  | .obj id =>
    let o := objOf w.heap id
    { w with heap := heapSet w.heap id { o with fields := setPair k x o.fields } }
  | _ => w

/-- Constructor of a value under `value?.constructor`: `undefined` for
`undefined`/`null` (optional chaining), the primitive wrapper classes for
primitives, `Array` for arrays, and the heap object's own class tag. -/
def ctorNameOf (w : World) : JSVal → Option String
  | .undef => none
  | .null => none
  | .num _ => some "Number"
  | .str _ => some "String"
  | .bool _ => some "Boolean"
  | .arr _ => some "Array"
  | .obj id => some (objOf w.heap id).ctor

def hasCopyV (w : World) : JSVal → Bool
  | .obj id => (objOf w.heap id).hasCopy
  | _ => false

def hasSetV (w : World) : JSVal → Bool
  | .obj id => (objOf w.heap id).hasSet
  | _ => false

def hasFromArrayV (w : World) : JSVal → Bool
  | .obj id => (objOf w.heap id).hasFromArray
  | _ => false

def hasSetScalarV (w : World) : JSVal → Bool
  | .obj id => (objOf w.heap id).hasSetScalar
  | _ => false

def isLayersV (w : World) : JSVal → Bool
  | .obj id => (objOf w.heap id).isLayers
  | _ => false

def isColorV (w : World) : JSVal → Bool
  | .obj id => (objOf w.heap id).isColor
  | _ => false

def isObject3DV (w : World) : JSVal → Bool
  | .obj id => (objOf w.heap id).isObject3D
  | _ => false

def isTextureV (w : World) : JSVal → Bool
  | .obj id => (objOf w.heap id).isTexture
  | _ => false

/-- Feature detection of `hasColorSpace` (src/src/utils/has-colorspace.ts):
`"colorSpace" in object || "outputColorSpace" in object`. -/
def hasColorSpaceV (w : World) : JSVal → Bool
  | .obj id =>
    hasPair "colorSpace" (objOf w.heap id).fields ||
      hasPair "outputColorSpace" (objOf w.heap id).fields
  | _ => false

end SolidThree

namespace SolidThree

/-! ### applyProp (src/src/props.ts, lines 111-219) -/

/-- The fixed list of well-known property names whose truthiness
transitions set `needsUpdate` (src/src/props.ts, `NEEDS_UPDATE`). -/
def NEEDS_UPDATE : List String :=
  ["map", "envMap", "bumpMap", "normalMap", "transparent", "morphTargets",
   "skinning", "alphaTest", "useVertexColors", "flatShading"]

/-- Mirrors `isEventType` (src/src/create-events.ts line 14): the regex
test of the recognized event-handler name prefixes. -/
def isEventTypeStr (s : String) : Bool :=
  strStarts s "onPointer" || strStarts s "onClick" || strStarts s "onDoubleClick" ||
    strStarts s "onContextMenu" || strStarts s "onWheel" || strStarts s "onMouse"

/-- The setter strategy `applyProp` ends up executing for a prop write. -/
inductive Strategy where
  | copyInto
  | maskCopy
  | fromArray
  | setSpread
  | setScalar
  | setOne
  | assign
  | skip
  deriving DecidableEq, Repr

/-- Setter selection exactly as the branch cascade of `applyProp`
(src/src/props.ts lines 165-213) performs it on `target = source[type]`
and `value`:

* `target?.copy && target?.constructor === value?.constructor` — copy;
* `target instanceof Layers && value instanceof Layers` — copy the mask;
* `target?.set && Array.isArray(value)` — `fromArray` if available,
  else variadic `set(...value)`;
* `target?.set && typeof value !== "object"` — `setScalar` for a number
  on a non-Color target that has `setScalar`, else `set(value)` unless
  the value is `undefined` (in which case nothing at all runs);
* otherwise plain assignment. -/
def selectStrategy (w : World) (target value : JSVal) : Strategy :=
  if hasCopyV w target && (ctorNameOf w target == ctorNameOf w value) then
    .copyInto
  else if isLayersV w target && isLayersV w value then
    .maskCopy
  else if hasSetV w target && isArrV value then
    (if hasFromArrayV w target then .fromArray else .setSpread)
  else if hasSetV w target && typeofNonObject value then
    (if !isColorV w target && hasSetScalarV w target && isNumV value then .setScalar
     else if !(value matches .undef) then .setOne
     else .skip)
  else
    .assign

/-- Writes the given values componentwise into the object's component
keys, as `fromArray` / variadic `set` do for vector-like math types. -/
def writeComponents (w : World) (target : JSVal) (xs : List JSVal) : World :=
  match target with
  | .obj id =>
    let o := objOf w.heap id
    let fields := ((o.componentKeys.zip xs).foldl (fun fs kv => setPair kv.1 kv.2 fs) o.fields)
    { w with heap := heapSet w.heap id { o with fields := fields } }
  | _ => w

/-- THREE constants `RGBAFormat` and `UnsignedByteType`. -/
def RGBAFormat : JSVal := .num 1023
def UnsignedByteType : JSVal := .num 1009

/-- The sRGB-texture auto-conversion that runs after a plain assignment
(src/src/props.ts lines 192-212): when the freshly assigned value is an
RGBA8 `Texture`, its color space (or legacy encoding) is synchronized
from the renderer. -/
def textureAutoConvert (w : World) (assigned : JSVal) : World :=
  match assigned with
  | .obj id =>
    let o := objOf w.heap id
    if o.isTexture && (getPair "format" o.fields matches .num 1023) &&
        (getPair "type" o.fields matches .num 1009) then
      if hasColorSpaceV w assigned && w.glHasColorSpace then
        setFieldV w assigned "colorSpace" w.glOutputColorSpace
      else
        setFieldV w assigned "encoding" w.glOutputEncoding
    else w
  | _ => w

/-- Heap effect of executing one selected setter strategy on
`target = source[key]` with the incoming `value`. -/
def applyStrategy (w : World) (source : JSVal) (key : String) (target value : JSVal) :
    Strategy → World
  | .copyInto =>
    -- `target.copy(value)`: copy the value object's data into the target
    -- object in place (identity of the target is preserved).
    match target, value with
    | .obj tid, .obj vid =>
      let t := objOf w.heap tid
      { w with heap := heapSet w.heap tid { t with fields := (objOf w.heap vid).fields } }
    | _, _ => w
  | .maskCopy =>
    -- `target.mask = value.mask`
    setFieldV w target "mask" (getFieldV w value "mask")
  | .fromArray =>
    match value with
    | .arr xs => writeComponents w target xs
    | _ => w
  | .setSpread =>
    match value with
    | .arr xs => writeComponents w target xs
    | _ => w
  | .setScalar =>
    -- `target.setScalar(value)`: every component receives the scalar.
    match target with
    | .obj id =>
      let o := objOf w.heap id
      let fields := o.componentKeys.foldl (fun fs k => setPair k value fs) o.fields
      { w with heap := heapSet w.heap id { o with fields := fields } }
    | _ => w
  | .setOne =>
    -- `target.set(value)`: the generic setter is class-specific in THREE;
    -- the model records the argument in a dedicated slot of the target.
    setFieldV w target "setValue" value
  | .assign =>
    let w1 := setFieldV w source key value
    textureAutoConvert w1 (getFieldV w1 source key)
  | .skip => w

/-- Externally observable effects of a call into the prop engine. -/
structure Effects where
  renderRequests : Nat := 0
  eventRegs : List (Nat × String) := []
  errors : Nat := 0
  deriving DecidableEq, Repr

def Effects.merge (a b : Effects) : Effects :=
  { renderRequests := a.renderRequests + b.renderRequests,
    eventRegs := a.eventRegs ++ b.eventRegs,
    errors := a.errors + b.errors }

/-- Shallow embedding of `applyProp` (src/src/props.ts lines 111-219),
recursing over the dash-separated segments of the key exactly as the
source recurses on `type.split("-")`:

1. a falsy `source` is reported and ignored;
2. `value === undefined` returns immediately;
3. a dashed key recurses into `source[head]` with the remaining segments;
4. a `NEEDS_UPDATE` key flips `needsUpdate` on a truthiness transition;
5. `encoding`/`outputEncoding` are aliased to the color-space form when
   the source supports it;
6. event-handler keys are routed to the event registry (only for
   `Object3D` sources) and do not touch the object;
7. otherwise one setter strategy runs, and in `frameloop === "demand"`
   mode the `finally` block requests exactly one render. -/
def applyPropGo (w : World) : JSVal → List String → JSVal → World × Effects
  | _, [], _ => (w, {})
  | source, p :: rest, value =>
    if !truthy source then
      (w, { errors := 1 })
    else if value matches .undef then
      (w, {})
    else match rest with
    | q :: rest2 =>
      -- `type.indexOf("-") > -1`: recurse into the sub-object.
      applyPropGo w (getFieldV w source p) (q :: rest2) value
    | [] =>
      let w1 :=
        if NEEDS_UPDATE.contains p &&
            ((!truthy (getFieldV w source p) && truthy value) ||
              (truthy (getFieldV w source p) && !truthy value)) then
          setFieldV w source "needsUpdate" (.bool true)
        else w
      let pv : String × JSVal :=
        if hasColorSpaceV w1 source then
          if p = "encoding" then
            ("colorSpace", if value matches .num 3001 then .str "srgb" else .str "srgb-linear")
          else if p = "outputEncoding" then
            ("outputColorSpace",
              if value matches .num 3001 then .str "srgb" else .str "srgb-linear")
          else (p, value)
        else (p, value)
      if isEventTypeStr pv.1 then
        match source with
        | .obj id =>
          if isObject3DV w1 source then (w1, { eventRegs := [(id, pv.1)] })
          else (w1, { errors := 1 })
        | _ => (w1, { errors := 1 })
      else
        let target := getFieldV w1 source pv.1
        let w2 := applyStrategy w1 source pv.1 target pv.2 (selectStrategy w1 target pv.2)
        (w2, { renderRequests := if w2.frameloop = "demand" then 1 else 0 })

/-- Embedded `applyProp` on a string key. -/
def applyProp (w : World) (source : JSVal) (key : String) (value : JSVal) :
    World × Effects :=
  applyPropGo w source (splitDash key) value

end SolidThree

namespace SolidThree

/-! ### manageProps (src/src/props.ts, lines 61-77)

For every key of the props object an effect applies the key and then
immediately re-applies every other key that contains it as a substring
(`keys.filter(_key => key !== _key && _key.includes(key))`), so dotted
sub-properties are re-established right after their parent key. -/

/-- The sub-keys re-applied after `key`, per the source's filter. -/
def subKeysOf (keys : List String) (key : String) : List String :=
  keys.filter (fun k => decide (k ≠ key) && strIncludes k key)

/-- One prop-application pass of `manageProps`: every key in declaration
order, each immediately followed by its matching dotted sub-keys. -/
def managePropsPass (w : World) (source : JSVal) (props : List (String × JSVal)) :
    World × Effects :=
  let keys := props.map Prod.fst
  props.foldl
    (fun acc kv =>
      let r1 := applyProp acc.1 source kv.1 kv.2
      let acc1 := (r1.1, acc.2.merge r1.2)
      (subKeysOf keys kv.1).foldl
        (fun acc2 sk =>
          let r2 := applyProp acc2.1 source sk (getPair sk props)
          (r2.1, acc2.2.merge r2.2))
        acc1)
    (w, {})

/-! ### manageSceneGraph: string attach paths (src/src/props.ts, lines 277-291)

The attach loop walks the dash-separated path keeping a `target` cursor,
but reads every intermediate step from `parent` rather than from the
cursor (`target = parent[property]`), and the cleanup writes `undefined`
at `parent[attachProp]` — the whole dashed string used as a single
property name. -/

/-- The attach loop of `manageSceneGraph`.  `target` starts at the parent;
when one segment remains it receives the child; otherwise the cursor is
reloaded from `parent[property]` and the loop continues. -/
def attachGo (w : World) (parent : JSVal) (target : JSVal) :
    List String → JSVal → World
  | [], _ => w
  | [p], child => setFieldV w target p child
  | p :: q :: rest, child => attachGo w parent (getFieldV w parent p) (q :: rest) child

/-- Attaching a child under a string-valued attach prop. -/
def attachString (w : World) (parentId : Nat) (attachProp : String) (child : JSVal) : World :=
  attachGo w (.obj parentId) (.obj parentId) (splitDash attachProp) child

/-- The cleanup registered by the attach branch:
`onCleanup(() => (parent[attachProp] = undefined))`. -/
def detachCleanup (w : World) (parentId : Nat) (attachProp : String) : World :=
  setFieldV w (.obj parentId) attachProp (.undef)

/-! ### manageSceneGraph: native child-list connection under mapArray
(src/src/props.ts, lines 242-311)

`manageSceneGraph` maps the resolved children array through solid-js
`mapArray`.  `mapArray` is keyed by item identity: re-evaluating the
source with a permutation of the same identities reuses each existing
mapped result without re-running the mapping function or its cleanups;
the mapping function runs only for identities that were not previously
mapped, and cleanups run only for identities that disappeared.  The
per-child effect adds an `Object3D` child to the parent's native child
list with `parent.add(child)` when it is not already listed, and its
cleanup removes it with `parent.remove(child)`. -/

structure SGState where
  /-- Identities currently mapped by `mapArray`, in declared order. -/
  mapped : List Nat := []
  /-- The parent's native `children` array (host child-list order). -/
  hostChildren : List Nat := []
  deriving DecidableEq, Repr

/-- Effect body for one native child-list child: `parent.add(child)` if
not already listed (THREE's `add` appends to `children`). -/
def connectEffect (s : SGState) (id : Nat) : SGState :=
  if s.hostChildren.contains id then s
  else { s with hostChildren := s.hostChildren ++ [id] }

/-- Cleanup for one native child-list child: `parent.remove(child)`. -/
def connectCleanup (s : SGState) (id : Nat) : SGState :=
  { s with hostChildren := s.hostChildren.erase id }

/-- One re-evaluation of the children expression against `mapArray`:
cleanups run for identities that vanished, the mapping function runs for
new identities (in declared order), retained identities are reused
untouched. -/
def stepDeclare (s : SGState) (newList : List Nat) : SGState :=
  let removed := s.mapped.filter (fun id => !newList.contains id)
  let s1 := removed.foldl connectCleanup s
  let added := newList.filter (fun id => !s.mapped.contains id)
  let s2 := added.foldl connectEffect s1
  { s2 with mapped := newList }

/-! ### augment (src/src/augment.ts, lines 29-35)

The canonical `augment` (the variant the rest of the core imports, with
the `$S3C in instance` guard): metadata is attached only if absent, and
the instance itself is returned either way. -/

/-- Metadata record stored behind the `$S3C` symbol. -/
structure S3Meta where
  children : List Nat := []
  props : List (String × JSVal) := []

/-- The side table of `$S3C` metadata records, keyed by object identity. -/
abbrev MetaStore := List (Nat × S3Meta)

def metaGet : MetaStore → Nat → Option S3Meta
  | [], _ => none
  | (i, m) :: rest, id => if i = id then some m else metaGet rest id

def metaSet : MetaStore → Nat → S3Meta → MetaStore
  | [], id, m => [(id, m)]
  | (i, m1) :: rest, id, m => if i = id then (id, m) :: rest else (i, m1) :: metaSet rest id m

/-- Embedded `augment`: if the instance already carries metadata it is
returned unchanged; otherwise the metadata record is attached.  The
returned `Nat` is the wrapper identity — the instance itself in the
source, so the object id here. -/
def augment (s : MetaStore) (id : Nat) (augmentation : S3Meta) : MetaStore × Nat :=
  match metaGet s id with
  | some _ => (s, id)
  | none => (metaSet s id augmentation, id)

/-! ### Component resolution (src/src/proxy.tsx, lines 18-80)

`T` is a proxy over a cache `T_CACHE` pre-seeded with the built-in
`Primitive` and `Portal` components; a miss consults the mutable
`CATALOGUE` and either returns `undefined` (no constructor) or creates,
caches and returns a wrapper component.  Components are identified here
by the order of their creation (`nextId`). -/

structure TState where
  cache : List (String × Nat) := [("Primitive", 0), ("Portal", 1)]
  nextId : Nat := 2
  deriving DecidableEq, Repr

def cacheGet : List (String × Nat) → String → Option Nat
  | [], _ => none
  | (k, v) :: rest, name => if k = name then some v else cacheGet rest name

/-- Embedded proxy `get` handler: `catalogue` tells whether a constructor
is registered under the name. -/
def tLookup (catalogue : String → Bool) (s : TState) (name : String) :
    Option Nat × TState :=
  match cacheGet s.cache name with
  | some c => (some c, s)
  | none =>
    if catalogue name then
      (some s.nextId, { cache := s.cache ++ [(name, s.nextId)], nextId := s.nextId + 1 })
    else
      (none, s)

/-! ### requestRender (src/src/create-three.tsx, lines 101-111) -/

/-- Scheduler state: the `isRenderPending` latch plus a count of
`requestAnimationFrame(render)` registrations made so far. -/
structure RenderSched where
  isRenderPending : Bool := false
  scheduled : Nat := 0
  deriving DecidableEq, Repr

/-- Embedded `requestRender`: returns early while a render is pending,
otherwise latches the flag and schedules one render. -/
def requestRender (s : RenderSched) : RenderSched :=
  if s.isRenderPending then s
  else { isRenderPending := true, scheduled := s.scheduled + 1 }

/-- Embedded `render`: resets the latch when the scheduled render runs. -/
def runRender (s : RenderSched) : RenderSched :=
  { s with isRenderPending := false }

/-- Iterated render requests (all arriving before the pending render). -/
def requestN : Nat → RenderSched → RenderSched
  | 0, s => s
  | n + 1, s => requestN n (requestRender s)

end SolidThree

namespace SolidThree

/-! ### Event registry bookkeeping (src/src/create-events.ts, lines 27-37
and 194-223)

The registry holds one bucket per primary event type; enter/leave types
have no bucket of their own.  `addEventListener` derives the family move
type for enter/leave registrations and pushes the object into that bucket
unless already present.  Its cleanup, for a move-family type, returns
early while any of the family's move/enter/leave props is still declared
on the instance; otherwise it removes the object from
`eventRegistry[type]` — the registration's own type, which for enter and
leave names is not a bucket of the registry (the lookup yields
`undefined` in JS, so no bucket changes either way). -/

structure EventRegistry where
  onMouseMove : List Nat := []
  onMouseUp : List Nat := []
  onMouseDown : List Nat := []
  onPointerMove : List Nat := []
  onPointerUp : List Nat := []
  onPointerDown : List Nat := []
  onWheel : List Nat := []
  onClick : List Nat := []
  onDoubleClick : List Nat := []
  deriving DecidableEq, Repr

/-- Registry lookup by event-type name; `none` for names that are not
keys of the registry object (notably all Enter/Leave names). -/
def regGet (r : EventRegistry) (k : String) : Option (List Nat) :=
  if k = "onMouseMove" then some r.onMouseMove
  else if k = "onMouseUp" then some r.onMouseUp
  else if k = "onMouseDown" then some r.onMouseDown
  else if k = "onPointerMove" then some r.onPointerMove
  else if k = "onPointerUp" then some r.onPointerUp
  else if k = "onPointerDown" then some r.onPointerDown
  else if k = "onWheel" then some r.onWheel
  else if k = "onClick" then some r.onClick
  else if k = "onDoubleClick" then some r.onDoubleClick
  else none

/-- Registry update by event-type name; unknown names leave it unchanged. -/
def regSet (r : EventRegistry) (k : String) (l : List Nat) : EventRegistry :=
  if k = "onMouseMove" then { r with onMouseMove := l }
  else if k = "onMouseUp" then { r with onMouseUp := l }
  else if k = "onMouseDown" then { r with onMouseDown := l }
  else if k = "onPointerMove" then { r with onPointerMove := l }
  else if k = "onPointerUp" then { r with onPointerUp := l }
  else if k = "onPointerDown" then { r with onPointerDown := l }
  else if k = "onWheel" then { r with onWheel := l }
  else if k = "onClick" then { r with onClick := l }
  else if k = "onDoubleClick" then { r with onDoubleClick := l }
  else r

/-- `const derivedType = isDerivedEvent ? on(Pointer|Mouse)Move : type`. -/
def derivedTypeOf (ty : String) : String :=
  if strIncludes ty "Enter" || strIncludes ty "Leave" then
    (if strIncludes ty "Pointer" then "onPointerMove" else "onMouseMove")
  else ty

/-- Registration half of `addEventListener`: push into the derived-type
bucket unless the object is already listed. -/
def addEventListenerReg (r : EventRegistry) (obj : Nat) (ty : String) : EventRegistry :=
  let d := derivedTypeOf ty
  match regGet r d with
  | none => r
  | some l => if l.contains obj then r else regSet r d (l ++ [obj])

/-- `removeElementFromArray(eventRegistry[type], object)`: the
`remove-element-from-array` helper removes one occurrence from the named
bucket; for a name that is not a registry key no bucket is touched (the
JS lookup is `undefined`, so in every reading of the missing helper the
registry buckets are left unchanged). -/
def removeFromReg (r : EventRegistry) (ty : String) (obj : Nat) : EventRegistry :=
  match regGet r ty with
  | none => r
  | some l => regSet r ty (l.erase obj)

/-- Whether any of the pointer-family (or mouse-family) move, enter or
leave handlers is still declared among the instance's prop keys. -/
def familyStillDeclared (props : List String) (isPointer : Bool) : Bool :=
  if isPointer then
    props.contains "onPointerMove" || props.contains "onPointerEnter" ||
      props.contains "onPointerLeave"
  else
    props.contains "onMouseMove" || props.contains "onMouseEnter" ||
      props.contains "onMouseLeave"

/-- Cleanup half of `addEventListener` (the `onCleanup` callback):
for a move-derived registration, return early while any family handler
remains declared; otherwise remove the object from the bucket named by
the registration's own type. -/
def cleanupEventListener (r : EventRegistry) (obj : Nat) (ty : String)
    (props : List String) : EventRegistry :=
  let d := derivedTypeOf ty
  if strIncludes d "Move" && familyStillDeclared props (strIncludes ty "Pointer") then
    r
  else
    removeFromReg r ty obj

/-! ### The move/enter/leave handler (src/src/create-events.ts, lines 112-152)

`createMoveHandler` builds two independent synthetic events (one for
enter, one for move) over the same native event, walks the sorted
de-duplicated intersections, fires enter for newly intersected objects
and move for all of them — each with its own `stopped` flag and its own
bubble walk through the ancestors — and finally fires leave (with a third
independent event) for previously intersected objects that were not
re-intersected.  The loop breaks early only when both the move and the
enter events have been stopped.

Handlers are modelled by a function from object id and event kind to
`Option Bool`: `none` means no handler is declared, `some b` means a
handler exists and `b` tells whether it calls `stopPropagation`.
Ancestor chains (`parent` links) are a function from object id to the
list of ancestor ids.  The returned log records every handler invocation
in order. -/

inductive EvKind where
  | enter
  | move
  | leave
  deriving DecidableEq, Repr

/-- Event-system scene information: handlers and ancestor chains. -/
structure EvWorld where
  handler : Nat → EvKind → Option Bool
  ancestors : Nat → List Nat

/-- `bubbleDown`: walk the ancestors, invoking each declared handler for
the kind while the event has not been stopped. -/
def bubbleDown (E : EvWorld) (k : EvKind) : List Nat → Bool → Bool × List (Nat × EvKind)
  | [], st => (st, [])
  | a :: rest, st =>
    if st then (st, [])
    else
      match E.handler a k with
      | none => bubbleDown E k rest st
      | some b =>
        let r := bubbleDown E k rest (st || b)
        (r.1, (a, k) :: r.2)

/-- Fire the object's own handler for the kind (if declared) and then
bubble through its ancestors; returns the event's `stopped` flag after
the dispatch together with the invocation log.  The caller guarantees the
event was not stopped on entry (the source guards each dispatch). -/
def dispatchEvent (E : EvWorld) (k : EvKind) (o : Nat) : Bool × List (Nat × EvKind) :=
  match E.handler o k with
  | none => bubbleDown E k (E.ancestors o) false
  | some b =>
    let r := bubbleDown E k (E.ancestors o) b
    (r.1, (o, k) :: r.2)

/-- State threaded through the intersection loop: the two independent
`stopped` flags, the prior-intersections set being updated, and the
stale set from which visited intersections are deleted. -/
structure MoveState where
  enterStopped : Bool := false
  moveStopped : Bool := false
  prior : List Nat := []
  stale : List Nat := []
  deriving DecidableEq, Repr

def insertOnce (id : Nat) (l : List Nat) : List Nat :=
  if l.contains id then l else l ++ [id]

/-- The intersection loop of `createMoveHandler`: per intersection, fire
enter when not stopped and not previously intersected, then fire move
when not stopped; update the prior/stale bookkeeping; break when both
events are stopped. -/
def moveLoop (E : EvWorld) : List Nat → MoveState → MoveState × List (Nat × EvKind)
  | [], s => (s, [])
  | o :: rest, s =>
    let er :=
      if !s.enterStopped && !s.prior.contains o then dispatchEvent E .enter o
      else (s.enterStopped, [])
    let mr :=
      if !s.moveStopped then dispatchEvent E .move o
      else (s.moveStopped, [])
    let s1 : MoveState :=
      { enterStopped := er.1, moveStopped := mr.1,
        prior := insertOnce o s.prior, stale := s.stale.erase o }
    if mr.1 && er.1 then
      (s1, er.2 ++ mr.2)
    else
      let rec1 := moveLoop E rest s1
      (rec1.1, er.2 ++ mr.2 ++ rec1.2)

/-- The leave phase: every stale object is removed from the prior set
and, while the (single, shared) leave event is not stopped, receives its
own and its ancestors' leave handlers.  Arguments: stale objects, the
leave event's `stopped` flag, the prior set; result: the final prior set,
the final flag, and the invocation log. -/
def leaveLoop (E : EvWorld) : List Nat → Bool → List Nat → List Nat × Bool × List (Nat × EvKind)
  | [], st, prior => (prior, st, [])
  | o :: rest, st, prior =>
    let prior1 := prior.erase o
    if !st then
      let d := dispatchEvent E .leave o
      let r := leaveLoop E rest d.1 prior1
      (r.1, r.2.1, d.2 ++ r.2.2)
    else
      leaveLoop E rest st prior1

/-- One run of the handler produced by `createMoveHandler` for a native
move event: the intersection loop over the raycast result `xs`, then —
only when a prior move event exists — the leave phase over the stale set.
Returns the new prior-intersections set and the full invocation log. -/
def moveHandler (E : EvWorld) (xs : List Nat) (prior : List Nat) (hasPriorMove : Bool) :
    List Nat × List (Nat × EvKind) :=
  let r := moveLoop E xs { prior := prior, stale := prior }
  if hasPriorMove then
    let l := leaveLoop E r.1.stale false r.1.prior
    (l.1, r.2 ++ l.2.2)
  else
    (r.1.prior, r.2)

/-- Invocation log filtered to one event kind. -/
def filterKind (k : EvKind) (l : List (Nat × EvKind)) : List (Nat × EvKind) :=
  l.filter (fun e => e.2 = k)

end SolidThree

namespace SolidThree

/-! ### Spec-side setter order (for the refinement comparison)

`claimedSetterOrder` transcribes the resolution order exactly as the
specification's claim words it, to be compared against `selectStrategy`
(the embedding of the source's branch cascade);
`amendedSetterOrder` is the corrected rule list. -/

/-- The claimed resolution order, rule by rule as the claim states it:
(1) in-place copy when the target has a copy operation and the value has
the identical constructor; (2) mask-field copy for a Layers-style target;
(3) spreading an array value into the target's array setter (elementwise
`fromArray` preferred over variadic `set`); (4) `setScalar` for a single
number on a non-color target exposing `setScalar`; (5) the generic
single-argument `set`; (6) direct assignment of the property slot. -/
def claimedSetterOrder (w : World) (target value : JSVal) : Strategy :=
  if hasCopyV w target && (ctorNameOf w target == ctorNameOf w value) then
    .copyInto
  else if isLayersV w target then
    .maskCopy
  else if hasSetV w target && isArrV value then
    (if hasFromArrayV w target then .fromArray else .setSpread)
  else if hasSetScalarV w target && isNumV value && !isColorV w target then
    .setScalar
  else if hasSetV w target then
    .setOne
  else
    .assign

/-- The corrected resolution order, matching what the cascade actually
does: rule 2 also requires the value to be a `Layers`; rules 4 and 5
require the target to expose `set` and the value to be a non-object
primitive, so object-valued props that fail rules 1-3 are assigned
directly rather than passed to `set`. -/
def amendedSetterOrder (w : World) (target value : JSVal) : Strategy :=
  if hasCopyV w target && (ctorNameOf w target == ctorNameOf w value) then
    .copyInto
  else if isLayersV w target && isLayersV w value then
    .maskCopy
  else if hasSetV w target && isArrV value then
    (if hasFromArrayV w target then .fromArray else .setSpread)
  else if hasSetV w target && typeofNonObject value &&
      (isNumV value && !isColorV w target && hasSetScalarV w target) then
    .setScalar
  else if hasSetV w target && typeofNonObject value then
    .setOne
  else
    .assign

/-! ### Concrete fixtures used by the claim theorems and witnesses -/

/-- A vector-like math object (Vector3 shape: `copy`, `set`, `fromArray`,
`setScalar`, components x/y/z). -/
def vec3Obj (x0 y0 z0 : Int) : ThreeObj :=
  { ctor := "Vector3", hasCopy := true, hasSet := true, hasFromArray := true,
    hasSetScalar := true, componentKeys := ["x", "y", "z"],
    fields := [("x", .num x0), ("y", .num y0), ("z", .num z0)] }

/-- World for the dotted-precedence scenario: object 0 is the element,
its `vectorProp` slot holds the vector object 1. -/
def c5World (x0 y0 z0 : Int) : World :=
  { heap := [(0, { isObject3D := true, fields := [("vectorProp", .obj 1)] }),
             (1, vec3Obj x0 y0 z0)] }

/-- The two declared props of the precedence scenario, in declaration
order `vectorProp` then `vectorProp-y`. -/
def c5Props : List (String × JSVal) :=
  [("vectorProp", .arr [.num 1, .num 2, .num 3]), ("vectorProp-y", .num 9)]

/-- The same two props declared in the opposite order. -/
def c5PropsRev : List (String × JSVal) :=
  [("vectorProp-y", .num 9), ("vectorProp", .arr [.num 1, .num 2, .num 3])]

/-- World for the setter-order counterexample: the target slot holds a
`Vector3`-shaped object and the incoming value is an `Euler`-shaped
object (different constructor, not an array, not a `Layers`). -/
def c6World : World :=
  { heap := [(1, { ctor := "Vector3", hasCopy := true, hasSet := true,
                   hasFromArray := true, hasSetScalar := true }),
             (2, { ctor := "Euler", hasCopy := true, hasSet := true })] }

/-- World for the attach/detach scenario: parent 0 with an existing
`material` (object 1) and a nested slot `a` (object 3); object 2 is the
child being attached. -/
def c1World : World :=
  { heap := [(0, { isObject3D := true,
                   fields := [("material", .obj 1), ("a", .obj 3)] }),
             (1, { ctor := "Material" }),
             (2, { ctor := "Material" }),
             (3, { ctor := "Object" })] }

/-- A world in render-on-demand mode with the vector element, for the
render-request witness. -/
def c8World : World :=
  { c5World 4 5 6 with frameloop := "demand" }

/-- Registry fixture: object 5 listed in the pointer move bucket. -/
def c2Registry : EventRegistry :=
  { onPointerMove := [5] }

/-- Handlers for the stop-isolation witness: object 0 stops the enter
event; every object has a non-stopping move handler; no leave handlers. -/
def c7HandlerA : Nat → EvKind → Option Bool := fun i k =>
  match k with
  | .enter => if i = 0 then some true else some false
  | .move => some false
  | .leave => none

/-- Same as `c7HandlerA` but with no enter handlers at all. -/
def c7HandlerB : Nat → EvKind → Option Bool := fun _ k =>
  match k with
  | .enter => none
  | .move => some false
  | .leave => none

/-- Same as `c7HandlerA` but object 0's move handler stops the move
event. -/
def c7HandlerC : Nat → EvKind → Option Bool := fun i k =>
  match k with
  | .enter => if i = 0 then some true else some false
  | .move => if i = 0 then some true else some false
  | .leave => none

/-- Flat ancestor chains for the witness scene. -/
def c7Anc : Nat → List Nat := fun _ => []

def c7WorldA : EvWorld := { handler := c7HandlerA, ancestors := c7Anc }

def c7WorldB : EvWorld := { handler := c7HandlerB, ancestors := c7Anc }

def c7WorldC : EvWorld := { handler := c7HandlerC, ancestors := c7Anc }

end SolidThree

namespace SolidThree

/-! ### Shared helper lemmas -/

theorem getPair_setPair_same (k : String) (v : JSVal) (fs : List (String × JSVal)) :
    getPair k (setPair k v fs) = v := by
  induction fs with
  | nil => simp [setPair, getPair]
  | cons hd tl ih =>
    obtain ⟨k1, v1⟩ := hd
    by_cases h : k1 = k <;> simp [setPair, getPair, h, ih]

theorem getPair_setPair_ne (k k1 : String) (v : JSVal) (fs : List (String × JSVal))
    (h : k1 ≠ k) : getPair k1 (setPair k v fs) = getPair k1 fs := by
  induction fs with
  | nil => simp [setPair, getPair, Ne.symm h]
  | cons hd tl ih =>
    obtain ⟨k2, v2⟩ := hd
    by_cases h2 : k2 = k
    · subst h2
      simp [setPair, getPair, Ne.symm h]
    · simp [setPair, getPair, h2, ih]

theorem heapGet_heapSet_same (h : Heap) (id : Nat) (o : ThreeObj) :
    heapGet (heapSet h id o) id = some o := by
  induction h with
  | nil => simp [heapSet, heapGet]
  | cons hd tl ih =>
    obtain ⟨i, o1⟩ := hd
    by_cases hi : i = id <;> simp [heapSet, heapGet, hi, ih]

theorem heapGet_heapSet_ne (h : Heap) (i j : Nat) (o : ThreeObj) (hij : j ≠ i) :
    heapGet (heapSet h i o) j = heapGet h j := by
  induction h with
  | nil => simp [heapSet, heapGet, Ne.symm hij]
  | cons hd tl ih =>
    obtain ⟨i1, o1⟩ := hd
    by_cases hi : i1 = i
    · subst hi
      simp [heapSet, heapGet, Ne.symm hij]
    · simp [heapSet, heapGet, hi, ih]

theorem getFieldV_setFieldV_same (w : World) (i : Nat) (k : String) (x : JSVal) :
    getFieldV (setFieldV w (.obj i) k x) (.obj i) k = x := by
  simp [getFieldV, setFieldV, objOf, heapGet_heapSet_same, getPair_setPair_same]

theorem getFieldV_setFieldV_ne_key (w : World) (i j : Nat) (k k1 : String) (x : JSVal)
    (h : k1 ≠ k) : getFieldV (setFieldV w (.obj i) k x) (.obj j) k1 = getFieldV w (.obj j) k1 := by
  by_cases hij : j = i
  · subst hij
    simp [getFieldV, setFieldV, objOf, heapGet_heapSet_same, getPair_setPair_ne _ _ _ _ h]
  · simp [getFieldV, setFieldV, objOf, heapGet_heapSet_ne _ _ _ _ hij]

theorem metaGet_metaSet_same (s : MetaStore) (id : Nat) (m : S3Meta) :
    metaGet (metaSet s id m) id = some m := by
  induction s with
  | nil => simp [metaSet, metaGet]
  | cons hd tl ih =>
    obtain ⟨i, m1⟩ := hd
    by_cases hi : i = id <;> simp [metaSet, metaGet, hi, ih]

theorem cacheGet_append_of_none (c : List (String × Nat)) (name : String) (v : Nat)
    (h : cacheGet c name = none) : cacheGet (c ++ [(name, v)]) name = some v := by
  induction c with
  | nil => simp [cacheGet]
  | cons hd tl ih =>
    obtain ⟨k, v1⟩ := hd
    by_cases hk : k = name
    · simp [cacheGet, hk] at h
    · simp [cacheGet, hk] at h ⊢
      exact ih h

theorem matches_undef_false {v : JSVal} (h : v ≠ .undef) :
    (v matches JSVal.undef) = false := by
  cases v <;> first
  | rfl
  | exact absurd rfl h

/-! ### C10 — applyProp with an undefined value is a no-op -/

/-- C10: for every world, source and key, calling `applyProp` with the
value `undefined` leaves the world (and hence every property of every
object) unchanged, registers no event listener, and requests no render
pass. -/
theorem applyProp_undefined_noop (w : World) (source : JSVal) (key : String) :
    (applyProp w source key .undef).1 = w ∧
      (applyProp w source key .undef).2.renderRequests = 0 ∧
      (applyProp w source key .undef).2.eventRegs = [] := by
  unfold applyProp
  cases hs : splitDash key with
  | nil => simp [applyPropGo]
  | cons p rest =>
    rw [applyPropGo.eq_def]
    cases htr : truthy source <;> simp [htr]

/-! ### C4 — augment is idempotent -/

/-- C4: augmenting an already-augmented object is the identity: the
second call returns the same wrapper identity and the metadata store —
including the record attached by the first call — is left entirely
unchanged, whatever augmentation the second call carries. -/
theorem augment_idempotent (s : MetaStore) (id : Nat) (a a1 : S3Meta) :
    augment (augment s id a).1 id a1 = ((augment s id a).1, id) := by
  unfold augment
  cases h : metaGet s id with
  | some m => simp [h]
  | none => simp [h, metaGet_metaSet_same]

/-! ### C3 — reordering under mapArray does not reorder the host list -/

/-- C3 (failing input of the repo's own "can swap 4 array primitives"
test): mounting children `[a,b,c,d]` and re-declaring `[d,c,b,a]` leaves
the host child-list in the original insertion order — `mapArray` reuses
the per-identity effect, `parent.add` never re-runs, and no reorder takes
place — contradicting the claimed (and tested) `[d,c,b,a]`. -/
theorem children_permutation_keeps_host_order :
    (stepDeclare (stepDeclare {} [0, 1, 2, 3]) [3, 2, 1, 0]).hostChildren = [0, 1, 2, 3] ∧
      (stepDeclare (stepDeclare {} [0, 1, 2, 3]) [3, 2, 1, 0]).hostChildren ≠ [3, 2, 1, 0] ∧
      (stepDeclare (stepDeclare {} [0, 1, 2, 3]) [3, 2, 1, 0]).mapped = [3, 2, 1, 0] := by
  refine ⟨by decide, by decide, by decide⟩

end SolidThree

namespace SolidThree

/-! ### C9 — component resolution: catalogue miss and memoization -/

/-- C9 counterexample: the name `Primitive` has no constructor registered
in the catalogue (here the catalogue is empty), yet component resolution
returns the pre-seeded built-in component rather than `undefined`. -/
theorem component_resolution_primitive_cex :
    (tLookup (fun _ => false) {} "Primitive").1 = some 0 ∧
      (fun _ : String => false) "Primitive" = false ∧
      (some 0 : Option Nat) ≠ none := by
  refine ⟨rfl, rfl, by decide⟩

/-- C9 (amended): for a name that is neither cached (the cache is
pre-seeded with the built-in `Primitive` and `Portal` components) nor
registered in the catalogue, resolution returns `undefined` and caches
nothing; and once a lookup has produced a component, looking the name up
again returns the identical cached component without recomputing
(the state, including the fresh-component counter, is unchanged). -/
theorem component_resolution_memoized :
    (∀ (catalogue : String → Bool) (s : TState) (name : String),
        cacheGet s.cache name = none → catalogue name = false →
        tLookup catalogue s name = (none, s)) ∧
      (∀ (catalogue : String → Bool) (s : TState) (name : String) (c : Nat) (s1 : TState),
        tLookup catalogue s name = (some c, s1) →
        tLookup catalogue s1 name = (some c, s1)) := by
  constructor
  · intro cat s name hc hcat
    simp [tLookup, hc, hcat]
  · intro cat s name c s1 h
    unfold tLookup at h ⊢
    cases hg : cacheGet s.cache name with
    | some c0 =>
      simp [hg] at h
      obtain ⟨hc, hs⟩ := h
      subst hc
      subst hs
      simp [hg]
    | none =>
      simp [hg] at h
      cases hcat : cat name with
      | false => simp [hcat] at h
      | true =>
        simp [hcat] at h
        obtain ⟨hc, hs⟩ := h
        subst hc
        subst hs
        simp [cacheGet_append_of_none _ _ _ hg]

/-- C9 witness: the amended theorem applied at concrete inputs — a miss
on `Mesh` with an empty catalogue, and a second lookup of `Mesh` after a
successful first one. -/
theorem component_resolution_memoized_witness :
    tLookup (fun _ => false) {} "Mesh" = (none, {}) ∧
      tLookup (fun n => n == "Mesh")
          { cache := [("Primitive", 0), ("Portal", 1), ("Mesh", 2)], nextId := 3 } "Mesh" =
        (some 2, { cache := [("Primitive", 0), ("Portal", 1), ("Mesh", 2)], nextId := 3 }) := by
  constructor
  · exact component_resolution_memoized.1 (fun _ => false) {} "Mesh" rfl rfl
  · exact component_resolution_memoized.2 (fun n => n == "Mesh") {} "Mesh" 2 _ rfl

/-! ### C6 — setter resolution order -/

/-- C6 counterexample: the target slot holds a `Vector3`-shaped object
(exposing both `copy` and `set`) and the value is an `Euler`-shaped
object of a different constructor.  Rules 1-4 are inapplicable, so the
claimed order dispatches the generic single-argument `set`; the source's
cascade instead requires a non-object value for the `set` branch and
falls through to direct assignment. -/
theorem setter_order_object_value_cex :
    selectStrategy c6World (.obj 1) (.obj 2) = .assign ∧
      claimedSetterOrder c6World (.obj 1) (.obj 2) = .setOne ∧
      Strategy.assign ≠ Strategy.setOne := by
  refine ⟨rfl, rfl, by decide⟩

/-- C6 (amended): for every defined value, the cascade selects exactly
the strategy given by the corrected first-applicable rule list
`amendedSetterOrder` (rule 2 needs a `Layers` value, rules 3-5 need the
target to expose `set`, and rules 4-5 need a non-object primitive value;
everything else is directly assigned). -/
theorem setter_order_matches_amended (w : World) (target value : JSVal)
    (h : value ≠ .undef) :
    selectStrategy w target value = amendedSetterOrder w target value := by
  have hm := matches_undef_false h
  unfold selectStrategy amendedSetterOrder
  cases hA : (hasCopyV w target && (ctorNameOf w target == ctorNameOf w value)) <;>
    cases hB : (isLayersV w target && isLayersV w value) <;>
      cases hC : hasSetV w target <;>
        cases hD : isArrV value <;>
          cases hE : typeofNonObject value <;>
            cases hF : isNumV value <;>
              cases hG : isColorV w target <;>
                cases hH : hasSetScalarV w target <;>
                  simp [hA, hB, hC, hD, hE, hF, hG, hH, hm]

/-- C6 witness: the amended theorem applied to a number incoming on the
vector-shaped target. -/
theorem setter_order_matches_amended_witness :
    selectStrategy c6World (.obj 1) (.num 5) = amendedSetterOrder c6World (.obj 1) (.num 5) :=
  setter_order_matches_amended c6World (.obj 1) (.num 5) (fun hcon => JSVal.noConfusion hcon)

/-! ### C5 — dotted sub-key precedence -/

set_option maxHeartbeats 1600000 in
/-- C5: with `vectorProp = [1,2,3]` and `vectorProp-y = 9` declared on
one element (in either declaration order), the prop pass applies the
parent key and re-applies its dotted sub-key immediately after, so the
final vector state is `x = 1`, `y = 9`, `z = 3` whatever the initial
component values were. -/
theorem dotted_subkey_precedence (x0 y0 z0 : Int) :
    (getFieldV (managePropsPass (c5World x0 y0 z0) (.obj 0) c5Props).1 (.obj 1) "x" = .num 1 ∧
        getFieldV (managePropsPass (c5World x0 y0 z0) (.obj 0) c5Props).1 (.obj 1) "y" = .num 9 ∧
        getFieldV (managePropsPass (c5World x0 y0 z0) (.obj 0) c5Props).1 (.obj 1) "z" = .num 3) ∧
      (getFieldV (managePropsPass (c5World x0 y0 z0) (.obj 0) c5PropsRev).1 (.obj 1) "x" =
          .num 1 ∧
        getFieldV (managePropsPass (c5World x0 y0 z0) (.obj 0) c5PropsRev).1 (.obj 1) "y" =
          .num 9 ∧
        getFieldV (managePropsPass (c5World x0 y0 z0) (.obj 0) c5PropsRev).1 (.obj 1) "z" =
          .num 3) := by
  have h1 : applyProp (c5World x0 y0 z0) (.obj 0) "vectorProp"
      (.arr [.num 1, .num 2, .num 3]) = (c5World 1 2 3, {}) := rfl
  have h2 : applyProp (c5World 1 2 3) (.obj 0) "vectorProp-y" (.num 9) =
      (c5World 1 9 3, {}) := rfl
  have h3 : applyProp (c5World 1 9 3) (.obj 0) "vectorProp-y" (.num 9) =
      (c5World 1 9 3, {}) := rfl
  have h5 : applyProp (c5World x0 y0 z0) (.obj 0) "vectorProp-y" (.num 9) =
      (c5World x0 9 z0, {}) := rfl
  have h6 : applyProp (c5World x0 9 z0) (.obj 0) "vectorProp"
      (.arr [.num 1, .num 2, .num 3]) = (c5World 1 2 3, {}) := rfl
  have hs1 : subKeysOf ["vectorProp", "vectorProp-y"] "vectorProp" = ["vectorProp-y"] := rfl
  have hs2 : subKeysOf ["vectorProp", "vectorProp-y"] "vectorProp-y" = [] := rfl
  have hs3 : subKeysOf ["vectorProp-y", "vectorProp"] "vectorProp-y" = [] := rfl
  have hs4 : subKeysOf ["vectorProp-y", "vectorProp"] "vectorProp" = ["vectorProp-y"] := rfl
  have hg : getPair "vectorProp-y"
      [("vectorProp", JSVal.arr [.num 1, .num 2, .num 3]), ("vectorProp-y", JSVal.num 9)] =
      .num 9 := rfl
  have hgRev : getPair "vectorProp-y"
      [("vectorProp-y", JSVal.num 9), ("vectorProp", JSVal.arr [.num 1, .num 2, .num 3])] =
      .num 9 := rfl
  have hfwd : (managePropsPass (c5World x0 y0 z0) (.obj 0) c5Props).1 = c5World 1 9 3 := by
    simp only [managePropsPass, c5Props, List.map, List.foldl, hs1, hs2, hg, h1, h2, h3]
  have hrev : (managePropsPass (c5World x0 y0 z0) (.obj 0) c5PropsRev).1 = c5World 1 9 3 := by
    simp only [managePropsPass, c5PropsRev, List.map, List.foldl, hs3, hs4, hgRev, h5, h6, h2]
  rw [hfwd, hrev]
  exact ⟨⟨rfl, rfl, rfl⟩, ⟨rfl, rfl, rfl⟩⟩

end SolidThree

namespace SolidThree

/-! ### C1 — string attach paths: detach does not restore -/

/-- C1 counterexample: parent 0's `material` slot holds object 1;
attaching child 2 at `"material"` and then running the detach cleanup
leaves the slot `undefined` — not the previously occupying object 1 the
claim requires it to be restored to. -/
theorem attach_detach_not_restored_cex :
    getFieldV (detachCleanup (attachString c1World 0 "material" (.obj 2)) 0 "material")
        (.obj 0) "material" = .undef ∧
      getFieldV c1World (.obj 0) "material" = .obj 1 ∧
      JSVal.undef ≠ JSVal.obj 1 := by
  refine ⟨rfl, rfl, fun hcon => JSVal.noConfusion hcon⟩

/-- C1 (amended): the detach cleanup does not restore the previous value
and does not delete the slot; it writes `undefined` at the parent
property named by the entire attach string.  For a single-segment path
the attached slot therefore ends as `undefined` whatever it previously
held; for a dotted two-segment path the nested slot still holds the
child after detach, while the parent gains a literal dashed key set to
`undefined`. -/
theorem attach_detach_writes_undefined :
    (∀ (w : World) (pid : Nat) (p : String) (child : JSVal),
        splitDash p = [p] →
        getFieldV (detachCleanup (attachString w pid p child) pid p) (.obj pid) p = .undef) ∧
      (∀ (w : World) (pid m : Nat) (child : JSVal) (ap p q : String),
        splitDash ap = [p, q] → q ≠ ap →
        getFieldV w (.obj pid) p = .obj m →
        getFieldV (detachCleanup (attachString w pid ap child) pid ap) (.obj m) q = child ∧
          getFieldV (detachCleanup (attachString w pid ap child) pid ap) (.obj pid) ap =
            .undef) := by
  constructor
  · intro w pid p child hsplit
    unfold attachString detachCleanup
    rw [hsplit]
    exact getFieldV_setFieldV_same _ _ _ _
  · intro w pid m child ap p q hsplit hq hm
    unfold attachString detachCleanup
    rw [hsplit]
    rw [show attachGo w (.obj pid) (.obj pid) [p, q] child =
          setFieldV w (getFieldV w (.obj pid) p) q child from rfl]
    rw [hm]
    constructor
    · rw [getFieldV_setFieldV_ne_key _ _ _ _ _ _ hq]
      exact getFieldV_setFieldV_same _ _ _ _
    · exact getFieldV_setFieldV_same _ _ _ _

/-- C1 witness: the amended theorem applied to a single-segment path
(`fog`, previously absent) and to the dotted path `a-b` (where parent 0's
slot `a` holds object 3). -/
theorem attach_detach_writes_undefined_witness :
    getFieldV (detachCleanup (attachString c1World 0 "fog" (.obj 2)) 0 "fog") (.obj 0) "fog" =
        .undef ∧
      getFieldV (detachCleanup (attachString c1World 0 "a-b" (.obj 2)) 0 "a-b") (.obj 3) "b" =
        .obj 2 ∧
      getFieldV (detachCleanup (attachString c1World 0 "a-b" (.obj 2)) 0 "a-b") (.obj 0) "a-b" =
        .undef := by
  refine ⟨attach_detach_writes_undefined.1 c1World 0 "fog" (.obj 2) rfl, ?_, ?_⟩
  · exact (attach_detach_writes_undefined.2 c1World 0 3 (.obj 2) "a-b" "a" "b" rfl
      (by decide) rfl).1
  · exact (attach_detach_writes_undefined.2 c1World 0 3 (.obj 2) "a-b" "a" "b" rfl
      (by decide) rfl).2

end SolidThree

namespace SolidThree

/-! ### C2 — event registry bookkeeping for derived enter/leave events -/

theorem contains_append_self (l : List Nat) (a : Nat) : (l ++ [a]).contains a = true := by
  induction l with
  | nil => simp
  | cons b rest ih => simp [ih]

theorem derived_pEnter : derivedTypeOf "onPointerEnter" = "onPointerMove" := rfl

theorem derived_pLeave : derivedTypeOf "onPointerLeave" = "onPointerMove" := rfl

theorem derived_pMove : derivedTypeOf "onPointerMove" = "onPointerMove" := rfl

theorem derived_mEnter : derivedTypeOf "onMouseEnter" = "onMouseMove" := rfl

theorem derived_mLeave : derivedTypeOf "onMouseLeave" = "onMouseMove" := rfl

theorem derived_mMove : derivedTypeOf "onMouseMove" = "onMouseMove" := rfl

theorem regGet_pMove (r : EventRegistry) : regGet r "onPointerMove" = some r.onPointerMove := rfl

theorem regGet_mMove (r : EventRegistry) : regGet r "onMouseMove" = some r.onMouseMove := rfl

theorem regSet_pMove (r : EventRegistry) (l : List Nat) :
    regSet r "onPointerMove" l = { r with onPointerMove := l } := rfl

theorem regSet_mMove (r : EventRegistry) (l : List Nat) :
    regSet r "onMouseMove" l = { r with onMouseMove := l } := rfl

theorem cleanup_pEnter (r : EventRegistry) (obj : Nat) (props : List String) :
    cleanupEventListener r obj "onPointerEnter" props =
      (if familyStillDeclared props true then r else removeFromReg r "onPointerEnter" obj) := rfl

theorem cleanup_pLeave (r : EventRegistry) (obj : Nat) (props : List String) :
    cleanupEventListener r obj "onPointerLeave" props =
      (if familyStillDeclared props true then r else removeFromReg r "onPointerLeave" obj) := rfl

theorem cleanup_pMove (r : EventRegistry) (obj : Nat) (props : List String) :
    cleanupEventListener r obj "onPointerMove" props =
      (if familyStillDeclared props true then r else removeFromReg r "onPointerMove" obj) := rfl

theorem cleanup_mEnter (r : EventRegistry) (obj : Nat) (props : List String) :
    cleanupEventListener r obj "onMouseEnter" props =
      (if familyStillDeclared props false then r else removeFromReg r "onMouseEnter" obj) := rfl

theorem cleanup_mLeave (r : EventRegistry) (obj : Nat) (props : List String) :
    cleanupEventListener r obj "onMouseLeave" props =
      (if familyStillDeclared props false then r else removeFromReg r "onMouseLeave" obj) := rfl

theorem cleanup_mMove (r : EventRegistry) (obj : Nat) (props : List String) :
    cleanupEventListener r obj "onMouseMove" props =
      (if familyStillDeclared props false then r else removeFromReg r "onMouseMove" obj) := rfl

theorem removeFrom_pEnter (r : EventRegistry) (obj : Nat) :
    removeFromReg r "onPointerEnter" obj = r := rfl

theorem removeFrom_pLeave (r : EventRegistry) (obj : Nat) :
    removeFromReg r "onPointerLeave" obj = r := rfl

theorem removeFrom_mEnter (r : EventRegistry) (obj : Nat) :
    removeFromReg r "onMouseEnter" obj = r := rfl

theorem removeFrom_mLeave (r : EventRegistry) (obj : Nat) :
    removeFromReg r "onMouseLeave" obj = r := rfl

theorem removeFrom_pMove (r : EventRegistry) (obj : Nat) :
    removeFromReg r "onPointerMove" obj =
      regSet r "onPointerMove" (r.onPointerMove.erase obj) := rfl

theorem removeFrom_mMove (r : EventRegistry) (obj : Nat) :
    removeFromReg r "onMouseMove" obj =
      regSet r "onMouseMove" (r.onMouseMove.erase obj) := rfl

theorem addReg_pEnter (r : EventRegistry) (obj : Nat) :
    addEventListenerReg r obj "onPointerEnter" =
      (if r.onPointerMove.contains obj then r
       else regSet r "onPointerMove" (r.onPointerMove ++ [obj])) := rfl

theorem addReg_pLeave (r : EventRegistry) (obj : Nat) :
    addEventListenerReg r obj "onPointerLeave" =
      (if r.onPointerMove.contains obj then r
       else regSet r "onPointerMove" (r.onPointerMove ++ [obj])) := rfl

theorem addReg_mEnter (r : EventRegistry) (obj : Nat) :
    addEventListenerReg r obj "onMouseEnter" =
      (if r.onMouseMove.contains obj then r
       else regSet r "onMouseMove" (r.onMouseMove ++ [obj])) := rfl

theorem addReg_mLeave (r : EventRegistry) (obj : Nat) :
    addEventListenerReg r obj "onMouseLeave" =
      (if r.onMouseMove.contains obj then r
       else regSet r "onMouseMove" (r.onMouseMove ++ [obj])) := rfl

/-- C2: registering an enter or leave handler places the instance in the
pointer-family move bucket — adding it exactly once when absent and
leaving the registry untouched when it is already listed — and the
cleanup of one of the family's move/enter/leave registrations leaves the
registry (hence the move bucket) entirely unchanged while any of the
three family handlers remains declared in the instance's props; the
instance can disappear from the move bucket through a cleanup only once
none of them remains declared. -/
theorem addEventListener_move_bucket_retention :
    (∀ (r : EventRegistry) (obj : Nat) (ty : String),
        ty ∈ (["onPointerEnter", "onPointerLeave", "onMouseEnter", "onMouseLeave"] :
            List String) →
        ((regGet (addEventListenerReg r obj ty) (derivedTypeOf ty)).getD []).contains obj =
            true ∧
          (((regGet r (derivedTypeOf ty)).getD []).contains obj = true →
            addEventListenerReg r obj ty = r) ∧
          (((regGet r (derivedTypeOf ty)).getD []).contains obj = false →
            (regGet (addEventListenerReg r obj ty) (derivedTypeOf ty)).getD [] =
              ((regGet r (derivedTypeOf ty)).getD []) ++ [obj])) ∧
      (∀ (r : EventRegistry) (obj : Nat) (ty : String) (props : List String),
        ty ∈ (["onPointerMove", "onPointerEnter", "onPointerLeave", "onMouseMove",
                "onMouseEnter", "onMouseLeave"] : List String) →
        familyStillDeclared props (strIncludes ty "Pointer") = true →
        cleanupEventListener r obj ty props = r) ∧
      (∀ (r : EventRegistry) (obj : Nat) (ty : String) (props : List String),
        ty ∈ (["onPointerMove", "onPointerEnter", "onPointerLeave", "onMouseMove",
                "onMouseEnter", "onMouseLeave"] : List String) →
        ((regGet r (derivedTypeOf ty)).getD []).contains obj = true →
        ((regGet (cleanupEventListener r obj ty props) (derivedTypeOf ty)).getD []).contains
            obj = false →
        familyStillDeclared props (strIncludes ty "Pointer") = false) := by
  refine ⟨?_, ?_, ?_⟩
  · intro r obj ty hty
    fin_cases hty
    · cases hc : r.onPointerMove.contains obj <;> simp at hc <;>
        simp [addReg_pEnter, derived_pEnter, regGet_pMove, regSet_pMove, hc]
    · cases hc : r.onPointerMove.contains obj <;> simp at hc <;>
        simp [addReg_pLeave, derived_pLeave, regGet_pMove, regSet_pMove, hc]
    · cases hc : r.onMouseMove.contains obj <;> simp at hc <;>
        simp [addReg_mEnter, derived_mEnter, regGet_mMove, regSet_mMove, hc]
    · cases hc : r.onMouseMove.contains obj <;> simp at hc <;>
        simp [addReg_mLeave, derived_mLeave, regGet_mMove, regSet_mMove, hc]
  · intro r obj ty props hty hdecl
    fin_cases hty
    · rw [cleanup_pMove]
      rw [show strIncludes "onPointerMove" "Pointer" = true from rfl] at hdecl
      simp [hdecl]
    · rw [cleanup_pEnter]
      rw [show strIncludes "onPointerEnter" "Pointer" = true from rfl] at hdecl
      simp [hdecl]
    · rw [cleanup_pLeave]
      rw [show strIncludes "onPointerLeave" "Pointer" = true from rfl] at hdecl
      simp [hdecl]
    · rw [cleanup_mMove]
      rw [show strIncludes "onMouseMove" "Pointer" = false from rfl] at hdecl
      simp [hdecl]
    · rw [cleanup_mEnter]
      rw [show strIncludes "onMouseEnter" "Pointer" = false from rfl] at hdecl
      simp [hdecl]
    · rw [cleanup_mLeave]
      rw [show strIncludes "onMouseLeave" "Pointer" = false from rfl] at hdecl
      simp [hdecl]
  · intro r obj ty props hty hmem hgone
    fin_cases hty
    · rw [show strIncludes "onPointerMove" "Pointer" = true from rfl]
      cases hfd : familyStillDeclared props true
      · rfl
      · rw [derived_pMove] at hmem hgone
        rw [cleanup_pMove, hfd, if_pos rfl] at hgone
        rw [hmem] at hgone
        exact absurd hgone (by simp)
    · rw [show strIncludes "onPointerEnter" "Pointer" = true from rfl]
      cases hfd : familyStillDeclared props true
      · rfl
      · rw [derived_pEnter] at hmem hgone
        rw [cleanup_pEnter, hfd, if_pos rfl] at hgone
        rw [hmem] at hgone
        exact absurd hgone (by simp)
    · rw [show strIncludes "onPointerLeave" "Pointer" = true from rfl]
      cases hfd : familyStillDeclared props true
      · rfl
      · rw [derived_pLeave] at hmem hgone
        rw [cleanup_pLeave, hfd, if_pos rfl] at hgone
        rw [hmem] at hgone
        exact absurd hgone (by simp)
    · rw [show strIncludes "onMouseMove" "Pointer" = false from rfl]
      cases hfd : familyStillDeclared props false
      · rfl
      · rw [derived_mMove] at hmem hgone
        rw [cleanup_mMove, hfd, if_pos rfl] at hgone
        rw [hmem] at hgone
        exact absurd hgone (by simp)
    · rw [show strIncludes "onMouseEnter" "Pointer" = false from rfl]
      cases hfd : familyStillDeclared props false
      · rfl
      · rw [derived_mEnter] at hmem hgone
        rw [cleanup_mEnter, hfd, if_pos rfl] at hgone
        rw [hmem] at hgone
        exact absurd hgone (by simp)
    · rw [show strIncludes "onMouseLeave" "Pointer" = false from rfl]
      cases hfd : familyStillDeclared props false
      · rfl
      · rw [derived_mLeave] at hmem hgone
        rw [cleanup_mLeave, hfd, if_pos rfl] at hgone
        rw [hmem] at hgone
        exact absurd hgone (by simp)

/-- C2 witness: on the registry fixture (object 5 already in the pointer
move bucket), registering `onPointerEnter` keeps it listed without
duplication, and its cleanup with `onPointerLeave` still declared leaves
the registry unchanged. -/
theorem addEventListener_move_bucket_retention_witness :
    ((regGet (addEventListenerReg c2Registry 5 "onPointerEnter")
          (derivedTypeOf "onPointerEnter")).getD []).contains 5 = true ∧
      addEventListenerReg c2Registry 5 "onPointerEnter" = c2Registry ∧
      cleanupEventListener c2Registry 5 "onPointerEnter" ["onPointerLeave"] = c2Registry := by
  refine ⟨?_, ?_, ?_⟩
  · exact (addEventListener_move_bucket_retention.1 c2Registry 5 "onPointerEnter"
      (by simp)).1
  · exact (addEventListener_move_bucket_retention.1 c2Registry 5 "onPointerEnter"
      (by simp)).2.1 (by decide)
  · exact addEventListener_move_bucket_retention.2.1 c2Registry 5 "onPointerEnter"
      ["onPointerLeave"] (by simp) (by decide)

end SolidThree

namespace SolidThree

/-! ### C8 — render-on-demand: one request per application, coalesced -/

theorem setFieldV_frameloop (w : World) (v : JSVal) (k : String) (x : JSVal) :
    (setFieldV w v k x).frameloop = w.frameloop := by
  cases v <;> rfl

theorem writeComponents_frameloop (w : World) (t : JSVal) (xs : List JSVal) :
    (writeComponents w t xs).frameloop = w.frameloop := by
  cases t <;> rfl

theorem textureAutoConvert_frameloop (w : World) (a : JSVal) :
    (textureAutoConvert w a).frameloop = w.frameloop := by
  cases a <;> simp only [textureAutoConvert] <;> try rfl
  split
  · split <;> simp [setFieldV_frameloop]
  · rfl

theorem applyStrategy_frameloop (w : World) (source : JSVal) (k : String)
    (target value : JSVal) (st : Strategy) :
    (applyStrategy w source k target value st).frameloop = w.frameloop := by
  cases st with
  | copyInto => cases target <;> cases value <;> simp [applyStrategy]
  | maskCopy => simp [applyStrategy, setFieldV_frameloop]
  | fromArray => cases value <;> simp [applyStrategy, writeComponents_frameloop]
  | setSpread => cases value <;> simp [applyStrategy, writeComponents_frameloop]
  | setScalar => cases target <;> simp [applyStrategy]
  | setOne => simp [applyStrategy, setFieldV_frameloop]
  | assign =>
    simp [applyStrategy, textureAutoConvert_frameloop, setFieldV_frameloop]
  | skip => rfl

theorem ite_setFieldV_frameloop (w : World) (v : JSVal) (k : String) (x : JSVal)
    (c : Prop) [Decidable c] : (if c then setFieldV w v k x else w).frameloop = w.frameloop := by
  split <;> simp [setFieldV_frameloop]

theorem pv_fst_not_event (c : Bool) (p : String) (value vX vY : JSVal)
    (he : isEventTypeStr p = false) :
    isEventTypeStr (if c = true then
        (if p = "encoding" then ("colorSpace", vX)
         else if p = "outputEncoding" then ("outputColorSpace", vY)
         else (p, value))
      else (p, value)).1 = false := by
  cases c
  · simpa using he
  · by_cases h1 : p = "encoding"
    · simp [h1]
      rfl
    · by_cases h2 : p = "outputEncoding"
      · simp [h1, h2]
        rfl
      · simpa [h1, h2] using he

theorem requestN_of_pending (n : Nat) (s : RenderSched) (h : s.isRenderPending = true) :
    requestN n s = s := by
  induction n with
  | zero => rfl
  | succ m ih =>
    have hr : requestRender s = s := by simp [requestRender, h]
    simp [requestN, hr, ih]

theorem applyPropGo_leaf_requests (w : World) (source : JSVal) (p : String) (value : JSVal)
    (hs : truthy source = true) (hv : value ≠ .undef) (he : isEventTypeStr p = false) :
    (applyPropGo w source [p] value).2.renderRequests =
      (if w.frameloop = "demand" then 1 else 0) := by
  rw [applyPropGo.eq_def]
  simp only [hs, matches_undef_false hv, Bool.not_true, Bool.false_eq_true, if_false,
    ite_false, ite_true, if_true]
  rw [if_neg (by rw [pv_fst_not_event] <;> simp [he])]
  simp only [applyStrategy_frameloop, ite_setFieldV_frameloop]

/-- C8: in render-on-demand mode, every prop application that reaches the
setter stage — a defined value on a truthy source whose (final) key is
not an event-handler name, for plain and for dotted keys alike — requests
exactly one render pass, and any positive number of render requests
arriving before the pending render executes schedules exactly one
render. -/
theorem demand_mode_render_requests :
    (∀ (w : World) (source : JSVal) (p : String) (value : JSVal),
        w.frameloop = "demand" → truthy source = true → value ≠ .undef →
        splitDash p = [p] → isEventTypeStr p = false →
        (applyProp w source p value).2.renderRequests = 1) ∧
      (∀ (w : World) (source : JSVal) (key p q : String) (value : JSVal),
        w.frameloop = "demand" → truthy source = true →
        truthy (getFieldV w source p) = true → value ≠ .undef →
        splitDash key = [p, q] → isEventTypeStr q = false →
        (applyProp w source key value).2.renderRequests = 1) ∧
      (∀ (n : Nat) (s : RenderSched), s.isRenderPending = false →
        (requestN (n + 1) s).scheduled = s.scheduled + 1 ∧
          (requestN (n + 1) s).isRenderPending = true) := by
  refine ⟨?_, ?_, ?_⟩
  · intro w source p value hw hs hv hsplit he
    rw [applyProp, hsplit, applyPropGo_leaf_requests w source p value hs hv he, hw]
    rfl
  · intro w source key p q value hw hs hf hv hsplit he
    rw [applyProp, hsplit]
    rw [show applyPropGo w source [p, q] value =
          applyPropGo w (getFieldV w source p) [q] value from by
        rw [applyPropGo.eq_def]
        simp [hs, matches_undef_false hv]]
    rw [applyPropGo_leaf_requests w (getFieldV w source p) q value hf hv he, hw]
    rfl
  · intro n s h
    have hr : requestRender s =
        { isRenderPending := true, scheduled := s.scheduled + 1 } := by
      simp [requestRender, h]
    constructor
    · simp [requestN, hr, requestN_of_pending]
    · simp [requestN, hr, requestN_of_pending]

/-- C8 witness: applying `visible` and the dotted `vectorProp-y` on the
demand-mode world requests one render each, and three requests arriving
before the render runs schedule exactly one render. -/
theorem demand_mode_render_requests_witness :
    (applyProp c8World (.obj 0) "visible" (.bool true)).2.renderRequests = 1 ∧
      (applyProp c8World (.obj 0) "vectorProp-y" (.num 9)).2.renderRequests = 1 ∧
      (requestN 3 {}).scheduled = 1 ∧ (requestN 3 {}).isRenderPending = true := by
  refine ⟨?_, ?_, ?_, ?_⟩
  · exact demand_mode_render_requests.1 c8World (.obj 0) "visible" (.bool true) rfl rfl
      (fun hcon => JSVal.noConfusion hcon) rfl rfl
  · exact demand_mode_render_requests.2.1 c8World (.obj 0) "vectorProp-y" "vectorProp" "y"
      (.num 9) rfl rfl rfl (fun hcon => JSVal.noConfusion hcon) rfl rfl
  · exact (demand_mode_render_requests.2.2 2 {} rfl).1
  · exact (demand_mode_render_requests.2.2 2 {} rfl).2

end SolidThree

namespace SolidThree

/-! ### C7 — independence of enter/move stopPropagation -/

theorem bubbleDown_kinds (E : EvWorld) (k : EvKind) :
    ∀ (l : List Nat) (st : Bool), ∀ e ∈ (bubbleDown E k l st).2, e.2 = k := by
  intro l
  induction l with
  | nil =>
    intro st e he
    simp [bubbleDown] at he
  | cons a rest ih =>
    intro st e he
    cases st with
    | true => simp [bubbleDown] at he
    | false =>
      simp only [bubbleDown, if_false, Bool.false_eq_true] at he
      cases hh : E.handler a k with
      | none =>
        rw [hh] at he
        exact ih _ e he
      | some b =>
        rw [hh] at he
        simp only [List.mem_cons] at he
        rcases he with he | he
        · simp [he]
        · exact ih _ e he

theorem dispatchEvent_kinds (E : EvWorld) (k : EvKind) (o : Nat) :
    ∀ e ∈ (dispatchEvent E k o).2, e.2 = k := by
  intro e he
  unfold dispatchEvent at he
  cases hh : E.handler o k with
  | none =>
    rw [hh] at he
    exact bubbleDown_kinds E k _ _ e he
  | some b =>
    rw [hh] at he
    simp only [List.mem_cons] at he
    rcases he with he | he
    · simp [he]
    · exact bubbleDown_kinds E k _ _ e he

theorem filterKind_append (k : EvKind) (l1 l2 : List (Nat × EvKind)) :
    filterKind k (l1 ++ l2) = filterKind k l1 ++ filterKind k l2 := by
  simp [filterKind, List.filter_append]

theorem filterKind_nil_of_ne (k k1 : EvKind) (h : k1 ≠ k) (l : List (Nat × EvKind))
    (hl : ∀ e ∈ l, e.2 = k) : filterKind k1 l = [] := by
  induction l with
  | nil => rfl
  | cons a rest ih =>
    have ha := hl a (by simp)
    have hrest : ∀ e ∈ rest, e.2 = k := fun e he => hl e (by simp [he])
    simp [filterKind, ha, Ne.symm h, ih hrest, List.filter_cons]
    intro x b hb
    have hbk : b = k := hrest (x, b) hb
    rw [hbk]
    exact Ne.symm h

theorem leaveLoop_kinds (E : EvWorld) :
    ∀ (l : List Nat) (st : Bool) (prior : List Nat),
      ∀ e ∈ (leaveLoop E l st prior).2.2, e.2 = .leave := by
  intro l
  induction l with
  | nil =>
    intro st prior e he
    simp [leaveLoop] at he
  | cons o rest ih =>
    intro st prior e he
    cases st with
    | true =>
      simp only [leaveLoop, Bool.not_true, Bool.false_eq_true, if_false] at he
      exact ih _ _ e he
    | false =>
      simp only [leaveLoop, Bool.not_false, if_true] at he
      rw [List.mem_append] at he
      rcases he with he | he
      · exact dispatchEvent_kinds E .leave o e he
      · exact ih _ _ e he

end SolidThree

namespace SolidThree

/-- The enter-phase result of one intersection never carries move-kind
log entries. -/
theorem er_move_nil (E : EvWorld) (s : MoveState) (o : Nat) :
    filterKind .move (if !s.enterStopped && !s.prior.contains o then dispatchEvent E .enter o
      else (s.enterStopped, [])).2 = [] := by
  split
  · exact filterKind_nil_of_ne _ _ (by decide) _ (dispatchEvent_kinds E .enter o)
  · rfl

/-- The move-phase result of one intersection never carries enter-kind
log entries. -/
theorem mr_enter_nil (E : EvWorld) (s : MoveState) (o : Nat) :
    filterKind .enter (if !s.moveStopped then dispatchEvent E .move o
      else (s.moveStopped, [])).2 = [] := by
  split
  · exact filterKind_nil_of_ne _ _ (by decide) _ (dispatchEvent_kinds E .move o)
  · rfl

theorem moveLoop_enter_absorb (E : EvWorld) :
    ∀ (xs : List Nat) (s : MoveState), s.enterStopped = true →
      filterKind .enter (moveLoop E xs s).2 = [] ∧
        (moveLoop E xs s).1.enterStopped = true := by
  intro xs
  induction xs with
  | nil =>
    intro s h
    exact ⟨rfl, h⟩
  | cons o rest ih =>
    intro s h
    simp only [moveLoop, h, Bool.not_true, Bool.false_and, Bool.false_eq_true, if_false]
    have hmv : filterKind .enter (dispatchEvent E .move o).2 = [] :=
      filterKind_nil_of_ne _ _ (by decide) _ (dispatchEvent_kinds E .move o)
    cases hm : s.moveStopped with
    | true =>
      simp only [hm, Bool.not_true, Bool.false_eq_true, if_false, Bool.and_true, if_true,
        Bool.true_and]
      exact ⟨by simp [filterKind], by trivial⟩
    | false =>
      simp only [hm, Bool.not_false, if_true, Bool.and_true]
      cases hb : (dispatchEvent E .move o).1 with
      | true =>
        simp only [hb, if_true]
        refine ⟨?_, by trivial⟩
        rw [show (([] : List (Nat × EvKind)) ++ (dispatchEvent E .move o).2) =
          (dispatchEvent E .move o).2 from List.nil_append _]
        exact hmv
      | false =>
        simp only [hb, Bool.false_eq_true, if_false]
        have hrec := ih ⟨true, false, insertOnce o s.prior, s.stale.erase o⟩ rfl
        refine ⟨?_, hrec.2⟩
        rw [List.nil_append, filterKind_append, hmv, hrec.1]
        rfl

theorem moveLoop_move_absorb (E : EvWorld) :
    ∀ (xs : List Nat) (s : MoveState), s.moveStopped = true →
      filterKind .move (moveLoop E xs s).2 = [] ∧
        (moveLoop E xs s).1.moveStopped = true := by
  intro xs
  induction xs with
  | nil =>
    intro s h
    exact ⟨rfl, h⟩
  | cons o rest ih =>
    intro s h
    simp only [moveLoop, h, Bool.not_true, Bool.false_eq_true, if_false, Bool.true_and]
    have hev := er_move_nil E s o
    cases hA : (if !s.enterStopped && !s.prior.contains o then dispatchEvent E .enter o
        else (s.enterStopped, [])).1 with
    | true =>
      simp only [hA, if_true]
      refine ⟨?_, by trivial⟩
      rw [filterKind_append, hev]
      rfl
    | false =>
      simp only [hA, Bool.false_eq_true, if_false]
      have hrec := ih ⟨false, true, insertOnce o s.prior, s.stale.erase o⟩ rfl
      refine ⟨?_, hrec.2⟩
      rw [filterKind_append, filterKind_append, hev, hrec.1]
      rfl

end SolidThree

namespace SolidThree

theorem bubbleDown_congr (E E1 : EvWorld) (k : EvKind)
    (hh : ∀ i, E.handler i k = E1.handler i k) :
    ∀ (l : List Nat) (st : Bool), bubbleDown E k l st = bubbleDown E1 k l st := by
  intro l
  induction l with
  | nil => intro st; rfl
  | cons a rest ih =>
    intro st
    simp only [bubbleDown, hh a, ih]

theorem dispatchEvent_congr (E E1 : EvWorld) (k : EvKind)
    (hh : ∀ i, E.handler i k = E1.handler i k) (hanc : E.ancestors = E1.ancestors)
    (o : Nat) : dispatchEvent E k o = dispatchEvent E1 k o := by
  unfold dispatchEvent
  rw [hh o, hanc]
  simp only [bubbleDown_congr E E1 k hh]

theorem moveLoop_move_proj (E E1 : EvWorld)
    (hm : ∀ i, E.handler i .move = E1.handler i .move)
    (hanc : E.ancestors = E1.ancestors) :
    ∀ (xs : List Nat) (s s1 : MoveState), s.moveStopped = s1.moveStopped →
      filterKind .move (moveLoop E xs s).2 = filterKind .move (moveLoop E1 xs s1).2 := by
  intro xs
  induction xs with
  | nil => intro s s1 heq; rfl
  | cons o rest ih =>
    intro s s1 heq
    have hd : dispatchEvent E .move o = dispatchEvent E1 .move o :=
      dispatchEvent_congr E E1 .move hm hanc o
    cases hms : s.moveStopped with
    | true =>
      have hms1 : s1.moveStopped = true := by rw [← heq]; exact hms
      rw [(moveLoop_move_absorb E (o :: rest) s hms).1,
        (moveLoop_move_absorb E1 (o :: rest) s1 hms1).1]
    | false =>
      have hms1 : s1.moveStopped = false := by rw [← heq]; exact hms
      simp only [moveLoop, hms, hms1, Bool.not_false, if_true]
      rw [hd]
      have hevL := er_move_nil E s o
      have hevR := er_move_nil E1 s1 o
      cases hmr : (dispatchEvent E1 .move o).1 with
      | false =>
        simp only [hmr, Bool.false_and, Bool.false_eq_true, if_false]
        rw [filterKind_append, filterKind_append, filterKind_append, filterKind_append,
          hevL, hevR]
        have hih := ih ⟨(if !s.enterStopped && !s.prior.contains o then
              dispatchEvent E .enter o else (s.enterStopped, [])).1, false,
            insertOnce o s.prior, s.stale.erase o⟩
          ⟨(if !s1.enterStopped && !s1.prior.contains o then
              dispatchEvent E1 .enter o else (s1.enterStopped, [])).1, false,
            insertOnce o s1.prior, s1.stale.erase o⟩ rfl
        rw [hih]
      | true =>
        simp only [hmr, Bool.true_and]
        cases hA : (if !s.enterStopped && !s.prior.contains o then
            dispatchEvent E .enter o else (s.enterStopped, [])).1 with
        | true =>
          simp only [hA, if_true]
          cases hB : (if !s1.enterStopped && !s1.prior.contains o then
              dispatchEvent E1 .enter o else (s1.enterStopped, [])).1 with
          | true =>
            simp only [hB, if_true]
            rw [filterKind_append, filterKind_append, hevL, hevR]
          | false =>
            simp only [hB, Bool.false_eq_true, if_false]
            rw [filterKind_append, filterKind_append, filterKind_append, hevL, hevR]
            rw [(moveLoop_move_absorb E1 rest
              ⟨false, true, insertOnce o s1.prior, s1.stale.erase o⟩ rfl).1]
            simp [filterKind]
        | false =>
          simp only [hA, Bool.false_eq_true, if_false]
          cases hB : (if !s1.enterStopped && !s1.prior.contains o then
              dispatchEvent E1 .enter o else (s1.enterStopped, [])).1 with
          | true =>
            simp only [hB, if_true]
            rw [filterKind_append, filterKind_append, filterKind_append, hevL, hevR]
            rw [(moveLoop_move_absorb E rest
              ⟨false, true, insertOnce o s.prior, s.stale.erase o⟩ rfl).1]
            simp [filterKind]
          | false =>
            simp only [hB, Bool.false_eq_true, if_false]
            rw [filterKind_append, filterKind_append, filterKind_append, filterKind_append,
              hevL, hevR]
            rw [(moveLoop_move_absorb E rest
              ⟨false, true, insertOnce o s.prior, s.stale.erase o⟩ rfl).1,
              (moveLoop_move_absorb E1 rest
              ⟨false, true, insertOnce o s1.prior, s1.stale.erase o⟩ rfl).1]

end SolidThree

namespace SolidThree

theorem moveLoop_enter_proj (E E1 : EvWorld)
    (he : ∀ i, E.handler i .enter = E1.handler i .enter)
    (hanc : E.ancestors = E1.ancestors) :
    ∀ (xs : List Nat) (s s1 : MoveState), s.enterStopped = s1.enterStopped →
      s.prior = s1.prior →
      filterKind .enter (moveLoop E xs s).2 = filterKind .enter (moveLoop E1 xs s1).2 := by
  intro xs
  induction xs with
  | nil => intro s s1 h1 h2; rfl
  | cons o rest ih =>
    intro s s1 hst hpr
    simp only [moveLoop]
    rw [hst, hpr, dispatchEvent_congr E E1 .enter he hanc]
    have hmrL := mr_enter_nil E s o
    have hmrR := mr_enter_nil E1 s1 o
    cases hA : (if !s1.enterStopped && !s1.prior.contains o then dispatchEvent E1 .enter o
        else (s1.enterStopped, [])).1 with
    | false =>
      simp only [hA, Bool.and_false, Bool.false_eq_true, if_false]
      rw [filterKind_append, filterKind_append, filterKind_append, filterKind_append,
        hmrL, hmrR]
      rw [ih ⟨false, (if !s.moveStopped then dispatchEvent E .move o
            else (s.moveStopped, [])).1, insertOnce o s1.prior, s.stale.erase o⟩
          ⟨false, (if !s1.moveStopped then dispatchEvent E1 .move o
            else (s1.moveStopped, [])).1, insertOnce o s1.prior, s1.stale.erase o⟩ rfl rfl]
    | true =>
      simp only [hA, Bool.and_true]
      cases hL : (if !s.moveStopped then dispatchEvent E .move o
          else (s.moveStopped, [])).1 with
      | true =>
        simp only [hL, if_true]
        cases hR : (if !s1.moveStopped then dispatchEvent E1 .move o
            else (s1.moveStopped, [])).1 with
        | true =>
          simp only [hR, if_true]
          rw [filterKind_append, filterKind_append, hmrL, hmrR]
        | false =>
          simp only [hR, Bool.false_eq_true, if_false]
          rw [filterKind_append, filterKind_append, filterKind_append, hmrL, hmrR]
          rw [(moveLoop_enter_absorb E1 rest
            ⟨true, false, insertOnce o s1.prior, s1.stale.erase o⟩ rfl).1]
          simp [filterKind]
      | false =>
        simp only [hL, Bool.false_eq_true, if_false]
        cases hR : (if !s1.moveStopped then dispatchEvent E1 .move o
            else (s1.moveStopped, [])).1 with
        | true =>
          simp only [hR, if_true]
          rw [filterKind_append, filterKind_append, filterKind_append, hmrL, hmrR]
          rw [(moveLoop_enter_absorb E rest
            ⟨true, false, insertOnce o s1.prior, s.stale.erase o⟩ rfl).1]
          simp [filterKind]
        | false =>
          simp only [hR, Bool.false_eq_true, if_false]
          rw [filterKind_append, filterKind_append, filterKind_append, filterKind_append,
            hmrL, hmrR]
          rw [(moveLoop_enter_absorb E rest
            ⟨true, false, insertOnce o s1.prior, s.stale.erase o⟩ rfl).1,
            (moveLoop_enter_absorb E1 rest
            ⟨true, false, insertOnce o s1.prior, s1.stale.erase o⟩ rfl).1]

/-- C7: during one move-class native event the two synthetic events are
independent: the sequence of move-handler invocations is entirely
determined by the move handlers (changing any enter handler — including
one that calls stopPropagation on the enter event — cannot alter it), the
sequence of enter-handler invocations is entirely determined by the enter
handlers and the previously-intersected set (move stops cannot alter it),
and once either event has been stopped no further dispatch of that kind
occurs in the rest of the pass. -/
theorem move_enter_stop_isolation :
    (∀ (E E1 : EvWorld) (xs prior : List Nat) (hp : Bool),
        (∀ i, E.handler i .move = E1.handler i .move) → E.ancestors = E1.ancestors →
        filterKind .move (moveHandler E xs prior hp).2 =
          filterKind .move (moveHandler E1 xs prior hp).2) ∧
      (∀ (E E1 : EvWorld) (xs prior : List Nat) (hp : Bool),
        (∀ i, E.handler i .enter = E1.handler i .enter) → E.ancestors = E1.ancestors →
        filterKind .enter (moveHandler E xs prior hp).2 =
          filterKind .enter (moveHandler E1 xs prior hp).2) ∧
      (∀ (E : EvWorld) (xs : List Nat) (s : MoveState), s.enterStopped = true →
        filterKind .enter (moveLoop E xs s).2 = []) ∧
      (∀ (E : EvWorld) (xs : List Nat) (s : MoveState), s.moveStopped = true →
        filterKind .move (moveLoop E xs s).2 = []) := by
  refine ⟨?_, ?_, ?_, ?_⟩
  · intro E E1 xs prior hp hm hanc
    have hproj := moveLoop_move_proj E E1 hm hanc xs
      ⟨false, false, prior, prior⟩ ⟨false, false, prior, prior⟩ rfl
    have hlvL := leaveLoop_kinds E (moveLoop E xs ⟨false, false, prior, prior⟩).1.stale
      false (moveLoop E xs ⟨false, false, prior, prior⟩).1.prior
    have hlvR := leaveLoop_kinds E1 (moveLoop E1 xs ⟨false, false, prior, prior⟩).1.stale
      false (moveLoop E1 xs ⟨false, false, prior, prior⟩).1.prior
    cases hp with
    | false => simpa [moveHandler] using hproj
    | true =>
      simp only [moveHandler, if_true]
      rw [filterKind_append, filterKind_append,
        filterKind_nil_of_ne _ _ (by decide) _ hlvL,
        filterKind_nil_of_ne _ _ (by decide) _ hlvR, hproj]
  · intro E E1 xs prior hp he hanc
    have hproj := moveLoop_enter_proj E E1 he hanc xs
      ⟨false, false, prior, prior⟩ ⟨false, false, prior, prior⟩ rfl rfl
    have hlvL := leaveLoop_kinds E (moveLoop E xs ⟨false, false, prior, prior⟩).1.stale
      false (moveLoop E xs ⟨false, false, prior, prior⟩).1.prior
    have hlvR := leaveLoop_kinds E1 (moveLoop E1 xs ⟨false, false, prior, prior⟩).1.stale
      false (moveLoop E1 xs ⟨false, false, prior, prior⟩).1.prior
    cases hp with
    | false => simpa [moveHandler] using hproj
    | true =>
      simp only [moveHandler, if_true]
      rw [filterKind_append, filterKind_append,
        filterKind_nil_of_ne _ _ (by decide) _ hlvL,
        filterKind_nil_of_ne _ _ (by decide) _ hlvR, hproj]
  · intro E xs s h
    exact (moveLoop_enter_absorb E xs s h).1
  · intro E xs s h
    exact (moveLoop_move_absorb E xs s h).1

/-- C7 witness: the isolation theorem applied to the two-object fixture
scene — removing all enter handlers leaves the move dispatch log
unchanged, making object 0's move handler stop the move event leaves the
enter dispatch log unchanged, and a pre-stopped event dispatches
nothing. -/
theorem move_enter_stop_isolation_witness :
    filterKind .move (moveHandler c7WorldA [0, 1] [] false).2 =
        filterKind .move (moveHandler c7WorldB [0, 1] [] false).2 ∧
      filterKind .enter (moveHandler c7WorldA [0, 1] [] false).2 =
        filterKind .enter (moveHandler c7WorldC [0, 1] [] false).2 ∧
      filterKind .enter (moveLoop c7WorldA [0, 1] ⟨true, false, [], []⟩).2 = [] ∧
      filterKind .move (moveLoop c7WorldA [0, 1] ⟨false, true, [], []⟩).2 = [] := by
  refine ⟨?_, ?_, ?_, ?_⟩
  · exact move_enter_stop_isolation.1 c7WorldA c7WorldB [0, 1] [] false (fun i => rfl) rfl
  · exact move_enter_stop_isolation.2.1 c7WorldA c7WorldC [0, 1] [] false (fun i => rfl) rfl
  · exact move_enter_stop_isolation.2.2.1 c7WorldA [0, 1] ⟨true, false, [], []⟩ rfl
  · exact move_enter_stop_isolation.2.2.2 c7WorldA [0, 1] ⟨false, true, [], []⟩ rfl

end SolidThree
